import Mathlib

/-!
Verification of the counselling-agent core: rank/tier computation (`db.py`),
the master-table join (`db.py`), and the tier-dominant scoring pipeline
(`ranking.py`, `scoring.py`), shallowly embedded over lists and rationals.
-/

/-! ## Rank and tier computation (db.py) -/

/-- One output row of the per-category rank computation: entity key,
aggregated `max_cutoff`, dense `rank`, and quartile `tier` label.
Mirrors the columns produced by `_rank_and_tier` in `db.py`. -/
structure RankRow (κ : Type) where
  key : κ
  max_cutoff : ℚ
  rank : ℕ
  tier : String
deriving DecidableEq, Repr

/-- Embeds `_tier_label` from `db.py`: percentile = rank / max_rank,
`≤ 0.25 → Top`, `≤ 0.50 → Best`, `≤ 0.75 → Next-Best`, else `Rest`. -/
def tier_label (rank maxRank : ℕ) : String :=
  let percentile : ℚ := (rank : ℚ) / (maxRank : ℚ)
  if percentile ≤ 1/4 then "Top"
  else if percentile ≤ 1/2 then "Best"
  else if percentile ≤ 3/4 then "Next-Best"
  else "Rest"

/-- The per-entity maximum cutoff: `cutoff.groupby(group_col)["Catogery OC Cutoff"].max()`
for one key `k`. A record is a (entity key, cutoff value) pair. -/
def maxCutoffOf {κ : Type} [DecidableEq κ] (records : List (κ × ℚ)) (k : κ) : ℚ :=
  (((records.filter fun p => decide (p.1 = k)).map Prod.snd).maximum).unbot' 0

/-- The aggregated table `agg` of `_rank_and_tier`: one row per distinct
entity key, carrying the per-entity maximum cutoff. -/
def agg {κ : Type} [DecidableEq κ] (records : List (κ × ℚ)) : List (κ × ℚ) :=
  ((records.map Prod.fst).dedup).map fun k => (k, maxCutoffOf records k)

/-- The `max_cutoff` column of the aggregated table. -/
def vals {κ : Type} [DecidableEq κ] (records : List (κ × ℚ)) : List ℚ :=
  (agg records).map Prod.snd

/-- Dense rank, descending, of a value `v` within the column `vs`:
1 + the number of distinct column values strictly greater than `v`.
This is `rank(method="dense", ascending=False)` from `_rank_and_tier`. -/
def rankOfVal (vs : List ℚ) (v : ℚ) : ℕ :=
  1 + (vs.toFinset.filter fun w => v < w).card

/-- `max_rank = agg[rank].max()` from `_rank_and_tier` (0 on an empty table). -/
def maxRank {κ : Type} [DecidableEq κ] (records : List (κ × ℚ)) : ℕ :=
  ((vals records).map (rankOfVal (vals records))).foldr max 0

/-- Embeds `_rank_and_tier` from `db.py` for a single category: group records
by entity key, take the per-entity maximum cutoff, assign dense descending
ranks and quartile tier labels. -/
def rank_and_tier {κ : Type} [DecidableEq κ] (records : List (κ × ℚ)) : List (RankRow κ) :=
  (agg records).map fun a =>
    ⟨a.1, a.2, rankOfVal (vals records) a.2,
      tier_label (rankOfVal (vals records) a.2) (maxRank records)⟩

/-! ## Master table construction (db.py, build_master_table) -/

/-- One cutoff record, keyed by the four entity identifiers. -/
structure CutoffRec where
  districtId : ℕ
  collegeCode : ℕ
  branchCode : ℕ
  departmentId : ℕ
  cutoff : ℚ
  year : ℕ
deriving DecidableEq, Repr

/-- One master-table row: the cutoff record plus the fields contributed by
each of the seven left joins, null while (or when) unmatched. -/
structure MRow where
  cut : CutoffRec
  district_name : Option String
  college_name : Option String
  branch_name : Option String
  district_data : Option (RankRow ℕ)
  department_data : Option (RankRow ℕ)
  branch_data : Option (RankRow ℕ)
  college_data : Option (RankRow ℕ)
deriving DecidableEq, Repr

/-- A pandas-style left merge: each left row is paired with every matching
right row, or kept once with its joined fields untouched (null) when no right
row matches. -/
def leftJoin {ρ σ : Type} (rows : List ρ) (table : List σ)
    (keyEq : ρ → σ → Bool) (upd : ρ → σ → ρ) : List ρ :=
  rows.flatMap fun r =>
    match table.filter (keyEq r) with
    | [] => [r]
    | t :: ts => (t :: ts).map (upd r)

/-- Embeds `build_master_table` from `db.py`: the sequence of seven left
joins of the cutoff table with the three reference tables and the four
rank tables. -/
def build_master_table (cutoff : List CutoffRec)
    (districts colleges branches : List (ℕ × String))
    (district_ranks department_ranks branch_ranks college_ranks : List (RankRow ℕ)) :
    List MRow :=
  let m0 := cutoff.map fun c => ⟨c, none, none, none, none, none, none, none⟩
  let m1 := leftJoin m0 districts (fun r t => r.cut.districtId == t.1)
    (fun r t => { r with district_name := some t.2 })
  let m2 := leftJoin m1 colleges (fun r t => r.cut.collegeCode == t.1)
    (fun r t => { r with college_name := some t.2 })
  let m3 := leftJoin m2 branches (fun r t => r.cut.branchCode == t.1)
    (fun r t => { r with branch_name := some t.2 })
  let m4 := leftJoin m3 district_ranks (fun r t => r.cut.districtId == t.key)
    (fun r t => { r with district_data := some t })
  let m5 := leftJoin m4 department_ranks (fun r t => r.cut.departmentId == t.key)
    (fun r t => { r with department_data := some t })
  let m6 := leftJoin m5 branch_ranks (fun r t => r.cut.branchCode == t.key)
    (fun r t => { r with branch_data := some t })
  leftJoin m6 college_ranks (fun r t => r.cut.collegeCode == t.key)
    (fun r t => { r with college_data := some t })

/-- Modelled from the spec's description of the join ("one row per entity
key"): the master row a single cutoff record should produce, with each joined
field obtained by looking up that record's key, null when absent. Used as the
refinement target for `build_master_table`. -/
def masterLookup (districts colleges branches : List (ℕ × String))
    (district_ranks department_ranks branch_ranks college_ranks : List (RankRow ℕ))
    (c : CutoffRec) : MRow :=
  ⟨c, (districts.find? fun t => c.districtId == t.1).map Prod.snd,
    (colleges.find? fun t => c.collegeCode == t.1).map Prod.snd,
    (branches.find? fun t => c.branchCode == t.1).map Prod.snd,
    district_ranks.find? fun t => c.districtId == t.key,
    department_ranks.find? fun t => c.departmentId == t.key,
    branch_ranks.find? fun t => c.branchCode == t.key,
    college_ranks.find? fun t => c.collegeCode == t.key⟩


/-- Embeds `compute_ranks_and_tiers` from `db.py`: the four per-category rank
tables (district, department, branch, college) derived from the cutoff
records. -/
def compute_ranks_and_tiers (cutoff : List CutoffRec) :
    List (RankRow ℕ) × List (RankRow ℕ) × List (RankRow ℕ) × List (RankRow ℕ) :=
  (rank_and_tier (cutoff.map fun c => (c.districtId, c.cutoff)),
   rank_and_tier (cutoff.map fun c => (c.departmentId, c.cutoff)),
   rank_and_tier (cutoff.map fun c => (c.branchCode, c.cutoff)),
   rank_and_tier (cutoff.map fun c => (c.collegeCode, c.cutoff)))

/-! ## Scoring pipeline (ranking.py, scoring.py) -/

/-- `TIER_SCORES.get(tier, 0)` from `ranking.py`: fixed base scores
Top = 4, Best = 3, Next-Best = 2, Rest = 1, anything else 0. -/
def TIER_SCORES_get (t : String) : ℕ :=
  if t = "Top" then 4
  else if t = "Best" then 3
  else if t = "Next-Best" then 2
  else if t = "Rest" then 1
  else 0

/-- `ALL_TIERS` from `ranking.py`. -/
def ALL_TIERS : List String := ["Top", "Best", "Next-Best", "Rest"]

/-- Embeds `tier_score` from `ranking.py`: the base score if the tier is in
the user's selected tiers, else 0. -/
def tier_score (t : String) (selected_tiers : List String) : ℕ :=
  if t ∈ selected_tiers then TIER_SCORES_get t else 0

/-- Tier score of a possibly-null tier cell: a null tier is never a member of
the selection list, so it scores 0 (as in pandas, where NaN ∈ list is false). -/
def optTierScore (o : Option String) (sel : List String) : ℕ :=
  match o with
  | some t => tier_score t sel
  | none => 0

/-- The pair of columns a rank table contributes to a master row for one
category: the entity's dense rank and its tier label. Null jointly when the
left join found no match. -/
structure CatData where
  rank : ℕ
  tier : String
deriving DecidableEq, Repr

/-- One master-table row as consumed by the scoring pipeline: the raw
`Catogery OC Cutoff` value plus the per-category joined rank/tier data
(null for unmatched joins). -/
structure SRow where
  cutoff : ℚ
  district : Option CatData
  department : Option CatData
  branch : Option CatData
  college : Option CatData
deriving DecidableEq, Repr

/-- Embeds `normalize_weights` from `scoring.py`. -/
def normalize_weights (district_w department_w branch_w college_w : ℚ) :
    ℚ × ℚ × ℚ × ℚ :=
  let total := district_w + department_w + branch_w + college_w
  if total = 0 then (1/4, 1/4, 1/4, 1/4)
  else (district_w / total, department_w / total, branch_w / total, college_w / total)

/-- A column maximum as pandas computes it: the maximum of the non-null
entries, null iff all entries are null. -/
def colMax (l : List (Option ℕ)) : Option ℕ :=
  (l.filterMap id).max?

/-- `rank_score = (max_rank + 1) - rank` for one cell; null (NaN) if either
the column maximum or the cell's rank is null, as NaN propagates in pandas. -/
def rankScore (m r : Option ℕ) : Option ℚ :=
  match m, r with
  | some mv, some rv => some ((mv : ℚ) + 1 - rv)
  | _, _ => none

/-- The weighted final score of one row given the four column maxima and the
four normalized weights; null if any category's rank score is null, since in
pandas NaN propagates through products and sums. -/
def rowFinal (dmax depmax bmax cmax : Option ℕ) (dw depw bw cw : ℚ) (r : SRow) : Option ℚ :=
  match rankScore dmax (r.district.map CatData.rank),
      rankScore depmax (r.department.map CatData.rank),
      rankScore bmax (r.branch.map CatData.rank),
      rankScore cmax (r.college.map CatData.rank) with
  | some a, some b, some c, some d => some (a * dw + b * depw + c * bw + d * cw)
  | _, _, _, _ => none

/-- The final-score function of `compute_final_scores` specialised to a
data frame: column maxima are taken over the frame, weights normalized. -/
def rowFinalW (df : List SRow) (dw depw bw cw : ℚ) : SRow → Option ℚ :=
  rowFinal (colMax (df.map fun r => r.district.map CatData.rank))
    (colMax (df.map fun r => r.department.map CatData.rank))
    (colMax (df.map fun r => r.branch.map CatData.rank))
    (colMax (df.map fun r => r.college.map CatData.rank))
    (normalize_weights dw depw bw cw).1 (normalize_weights dw depw bw cw).2.1
    (normalize_weights dw depw bw cw).2.2.1 (normalize_weights dw depw bw cw).2.2.2

/-- Embeds `compute_final_scores` from `scoring.py`: the series of weighted
final scores, one (possibly null) entry per row of the frame. -/
def compute_final_scores (df : List SRow) (district_w department_w branch_w college_w : ℚ) :
    List (Option ℚ) :=
  df.map (rowFinalW df district_w department_w branch_w college_w)

/-- Rounding to two decimal places, as `final_score.round(2)`. -/
def round2 (q : ℚ) : ℚ :=
  (Rat.floor (q * 100 + 1/2) : ℚ) / 100

/-- One row of the scoring pipeline's output: the underlying master row plus
the computed per-request columns of `apply_tier_filtering_and_scoring`. -/
structure ScoredRow where
  row : SRow
  college_tier_score : ℕ
  branch_tier_score : ℕ
  district_tier_score : ℕ
  sum_of_tiers : ℕ
  final_score : Option ℚ
  choose_order : ℕ
deriving DecidableEq, Repr

/-- Builds the scored columns for one row (steps 1-3 of the pipeline);
`choose_order` is assigned later, after sorting. -/
def scoreRow (college_tiers branch_tiers district_tiers : List String)
    (fin : Option ℚ) (r : SRow) : ScoredRow :=
  ⟨r, optTierScore (r.college.map CatData.tier) college_tiers,
    optTierScore (r.branch.map CatData.tier) branch_tiers,
    optTierScore (r.district.map CatData.tier) district_tiers,
    optTierScore (r.college.map CatData.tier) college_tiers
      + optTierScore (r.branch.map CatData.tier) branch_tiers
      + optTierScore (r.district.map CatData.tier) district_tiers,
    fin.map round2, 0⟩

/-- Sort key of a descending numeric column whose nulls sort last
(pandas `na_position="last"`): nulls map to the `true` component, which
orders after `false`; present values are negated to turn descending into
ascending. -/
def fsKey (o : Option ℚ) : Bool ×ₗ ℚ :=
  toLex (match o with
    | none => (true, 0)
    | some v => (false, -v))

/-- Sort key of an ascending numeric column whose nulls sort last. -/
def crKey (o : Option ℕ) : Bool ×ₗ ℚ :=
  toLex (match o with
    | none => (true, 0)
    | some v => (false, (v : ℚ)))

/-- The four-part lexicographic sort key of
`sort_values(by=[sum_of_tiers, final_score, "Catogery OC Cutoff", college_rank],
ascending=[False, False, False, True])`. -/
def sortKey (s : ScoredRow) : ℚ ×ₗ ((Bool ×ₗ ℚ) ×ₗ (ℚ ×ₗ (Bool ×ₗ ℚ))) :=
  toLex (-(s.sum_of_tiers : ℚ),
    toLex (fsKey s.final_score,
      toLex (-s.row.cutoff, crKey (s.row.college.map CatData.rank))))

/-- The row ordering used by the pipeline's sort. -/
def keyLe (a b : ScoredRow) : Prop :=
  sortKey a ≤ sortKey b

instance : DecidableRel keyLe :=
  fun a b => inferInstanceAs (Decidable (sortKey a ≤ sortKey b))

instance : IsTotal ScoredRow keyLe :=
  ⟨fun a b => le_total (sortKey a) (sortKey b)⟩

instance : IsTrans ScoredRow keyLe :=
  ⟨fun _ _ _ hab hbc => le_trans hab hbc⟩

/-- Embeds `apply_tier_filtering_and_scoring` from `scoring.py`: tier scores,
`sum_of_tiers`, rounded `final_score`, the stable four-key sort, and the
1-based `choose_order` column. pandas' multi-key `sort_values` is a stable
lexicographic sort, modelled by insertion sort on `keyLe`. -/
def apply_tier_filtering_and_scoring (df : List SRow)
    (college_tiers branch_tiers district_tiers : List String)
    (district_w department_w branch_w college_w : ℚ) : List ScoredRow :=
  let finals := compute_final_scores df district_w department_w branch_w college_w
  let scored := (df.zip finals).map fun p =>
    scoreRow college_tiers branch_tiers district_tiers p.2 p.1
  let sorted := List.insertionSort keyLe scored
  sorted.enum.map fun p => { p.2 with choose_order := p.1 + 1 }

/-! ## The explicit sort order -/

/-- Strict precedence in a descending column with nulls last: a present value
precedes a larger present value's row... (here: `a` strictly precedes `b`). -/
def fsDescLt (a b : Option ℚ) : Prop :=
  match a, b with
  | some v, some w => w < v
  | some _, none => True
  | none, _ => False

/-- Non-strict precedence in an ascending column with nulls last. -/
def crAscLe (a b : Option ℕ) : Prop :=
  match a, b with
  | some v, some w => v ≤ w
  | none, some _ => False
  | _, none => True

/-- The pipeline's row order, spelled out: `sum_of_tiers` descending, then
`final_score` descending (nulls last), then raw OC cutoff descending, then
`college_rank` ascending (nulls last). -/
def specLe (a b : ScoredRow) : Prop :=
  b.sum_of_tiers < a.sum_of_tiers ∨
  (a.sum_of_tiers = b.sum_of_tiers ∧
    (fsDescLt a.final_score b.final_score ∨
      (a.final_score = b.final_score ∧
        (b.row.cutoff < a.row.cutoff ∨
          (a.row.cutoff = b.row.cutoff ∧
            crAscLe (a.row.college.map CatData.rank) (b.row.college.map CatData.rank))))))

/-- A (possibly null) tier cell counts as selected iff it is present and its
value is in the selection list. -/
def optInSel (o : Option String) (sel : List String) : Prop :=
  match o with
  | some t => t ∈ sel
  | none => False

instance (o : Option String) (sel : List String) : Decidable (optInSel o sel) :=
  match o with
  | some t => inferInstanceAs (Decidable (t ∈ sel))
  | none => inferInstanceAs (Decidable False)

/-- All four categories of a master row are unmatched: every rank (and tier)
field is null. -/
def allRanksNull (r : SRow) : Prop :=
  r.district = none ∧ r.department = none ∧ r.branch = none ∧ r.college = none

/-- All four categories of a master row carry rank data. -/
def allRanked (r : SRow) : Prop :=
  r.district ≠ none ∧ r.department ≠ none ∧ r.branch ≠ none ∧ r.college ≠ none

instance (r : SRow) : Decidable (allRanksNull r) :=
  inferInstanceAs (Decidable
    (r.district = none ∧ r.department = none ∧ r.branch = none ∧ r.college = none))

instance (r : SRow) : Decidable (allRanked r) :=
  inferInstanceAs (Decidable
    (r.district ≠ none ∧ r.department ≠ none ∧ r.branch ≠ none ∧ r.college ≠ none))

/-! ## Concrete checks -/

example : tier_label 1 1 = "Rest" := by with_unfolding_all decide
example : tier_label 1 4 = "Top" := by with_unfolding_all decide
example : (rank_and_tier [((1 : ℕ), (100 : ℚ)), (2, 100), (3, 90), (4, 80)]).map RankRow.rank
    = [1, 1, 2, 3] := by with_unfolding_all decide
example : (rank_and_tier [((1 : ℕ), (100 : ℚ)), (2, 100), (3, 90), (4, 80)]).map RankRow.tier
    = ["Best", "Best", "Next-Best", "Rest"] := by with_unfolding_all decide

/-! ## The sort order, unfolded -/

lemma fsKey_lt_iff (a b : Option ℚ) : fsKey a < fsKey b ↔ fsDescLt a b := by
  cases a <;> cases b <;>
    simp [fsKey, fsDescLt, Prod.Lex.lt_iff, Bool.lt_iff]

lemma fsKey_eq_iff (a b : Option ℚ) : fsKey a = fsKey b ↔ a = b := by
  cases a <;> cases b <;>
    simp [fsKey, Prod.mk.injEq]

lemma crKey_le_iff (a b : Option ℕ) : crKey a ≤ crKey b ↔ crAscLe a b := by
  cases a <;> cases b <;>
    simp [crKey, crAscLe, Prod.Lex.le_iff, Bool.lt_iff]

lemma sortKey_le_iff (a b : ScoredRow) : sortKey a ≤ sortKey b ↔ specLe a b := by
  unfold sortKey specLe
  simp only [Prod.Lex.le_iff, fsKey_lt_iff, fsKey_eq_iff, crKey_le_iff,
    neg_lt_neg_iff, neg_inj, Nat.cast_lt, Nat.cast_inj]

lemma keyLe_iff_specLe (a b : ScoredRow) : keyLe a b ↔ specLe a b :=
  sortKey_le_iff a b

/-! ## Supporting lemmas for dense rank -/

lemma le_foldr_max {l : List ℕ} {a : ℕ} (h : a ∈ l) : a ≤ l.foldr max 0 := by
  induction l with
  | nil => cases h
  | cons b t ih =>
    rcases List.mem_cons.mp h with rfl | h
    · exact le_max_left _ _
    · exact le_trans (ih h) (le_max_right _ _)

lemma foldr_max_le {l : List ℕ} {m : ℕ} (h : ∀ a ∈ l, a ≤ m) : l.foldr max 0 ≤ m := by
  induction l with
  | nil => simp
  | cons b t ih =>
    exact max_le (h b (List.mem_cons_self _ _)) (ih fun a ha => h a (List.mem_cons_of_mem _ ha))

lemma filterGt_card_add_one_le {s : Finset ℚ} {v : ℚ} (hv : v ∈ s) :
    (s.filter fun w => v < w).card + 1 ≤ s.card := by
  have hsub : (s.filter fun w => v < w) ⊆ s.erase v := by
    intro w hw
    rcases Finset.mem_filter.mp hw with ⟨hws, hvw⟩
    exact Finset.mem_erase.mpr ⟨hvw.ne', hws⟩
  have h1 := Finset.card_le_card hsub
  rw [Finset.card_erase_of_mem hv] at h1
  have h2 : 1 ≤ s.card := Finset.card_pos.mpr ⟨v, hv⟩
  omega

lemma filterGt_min'_card {s : Finset ℚ} (hs : s.Nonempty) :
    (s.filter fun w => s.min' hs < w).card = s.card - 1 := by
  have he : (s.filter fun w => s.min' hs < w) = s.erase (s.min' hs) := by
    ext w
    simp only [Finset.mem_filter, Finset.mem_erase]
    constructor
    · rintro ⟨hws, hlt⟩
      exact ⟨hlt.ne', hws⟩
    · rintro ⟨hne, hws⟩
      exact ⟨hws, lt_of_le_of_ne (s.min'_le w hws) (Ne.symm hne)⟩
  rw [he, Finset.card_erase_of_mem (s.min'_mem hs)]

lemma filterGt_descend {s : Finset ℚ} {v : ℚ} (_hv : v ∈ s)
    (hpos : 0 < (s.filter fun w => v < w).card) :
    ∃ u ∈ s, (s.filter fun w => u < w).card = (s.filter fun w => v < w).card - 1 := by
  have hT : (s.filter fun w => v < w).Nonempty := Finset.card_pos.mp hpos
  obtain ⟨hus, hvu⟩ := Finset.mem_filter.mp ((s.filter fun w => v < w).min'_mem hT)
  refine ⟨(s.filter fun w => v < w).min' hT, hus, ?_⟩
  have he : (s.filter fun w => (s.filter fun w => v < w).min' hT < w)
      = (s.filter fun w => v < w).erase ((s.filter fun w => v < w).min' hT) := by
    ext w
    simp only [Finset.mem_filter, Finset.mem_erase]
    constructor
    · rintro ⟨hws, hlt⟩
      exact ⟨hlt.ne', hws, lt_trans hvu hlt⟩
    · rintro ⟨hne, hws, hvw⟩
      have hle := (s.filter fun w => v < w).min'_le w (Finset.mem_filter.mpr ⟨hws, hvw⟩)
      exact ⟨hws, lt_of_le_of_ne hle (Ne.symm hne)⟩
  rw [he, Finset.card_erase_of_mem ((s.filter fun w => v < w).min'_mem hT)]

lemma filterGt_surj (s : Finset ℚ) : ∀ c : ℕ, c < s.card →
    ∃ v ∈ s, (s.filter fun w => v < w).card = c := by
  suffices h : ∀ n c : ℕ, c + n + 1 = s.card → ∃ v ∈ s, (s.filter fun w => v < w).card = c by
    intro c hc
    exact h (s.card - c - 1) c (by omega)
  intro n
  induction n with
  | zero =>
    intro c hc
    have hs : s.Nonempty := Finset.card_pos.mp (by omega)
    exact ⟨s.min' hs, s.min'_mem hs, by rw [filterGt_min'_card hs]; omega⟩
  | succ n ih =>
    intro c hc
    obtain ⟨v, hv, hcard⟩ := ih (c + 1) (by omega)
    obtain ⟨u, hu, hucard⟩ := filterGt_descend hv (by omega)
    exact ⟨u, hu, by omega⟩

lemma out_spec {κ : Type} [DecidableEq κ] {records : List (κ × ℚ)} {e : RankRow κ}
    (he : e ∈ rank_and_tier records) :
    e.max_cutoff ∈ vals records ∧ e.rank = rankOfVal (vals records) e.max_cutoff ∧
    e.tier = tier_label (rankOfVal (vals records) e.max_cutoff) (maxRank records) := by
  rcases List.mem_map.mp he with ⟨a, ha, rfl⟩
  exact ⟨List.mem_map_of_mem _ ha, rfl, rfl⟩

lemma exists_out {κ : Type} [DecidableEq κ] {records : List (κ × ℚ)} {v : ℚ}
    (hv : v ∈ vals records) : ∃ e ∈ rank_and_tier records, e.max_cutoff = v := by
  rcases List.mem_map.mp hv with ⟨a, ha, rfl⟩
  exact ⟨_, List.mem_map_of_mem _ ha, rfl⟩

lemma maxRank_eq {κ : Type} [DecidableEq κ] (records : List (κ × ℚ))
    (h : vals records ≠ []) : maxRank records = (vals records).toFinset.card := by
  apply le_antisymm
  · apply foldr_max_le
    intro a ha
    rcases List.mem_map.mp ha with ⟨v, hv, rfl⟩
    have hvf : v ∈ (vals records).toFinset := List.mem_toFinset.mpr hv
    have := filterGt_card_add_one_le hvf
    unfold rankOfVal
    omega
  · obtain ⟨v0, hv0⟩ := List.exists_mem_of_ne_nil _ h
    have hne : (vals records).toFinset.Nonempty := ⟨v0, List.mem_toFinset.mpr hv0⟩
    have hcpos : 0 < (vals records).toFinset.card := Finset.card_pos.mpr hne
    obtain ⟨u, hu, hcard⟩ := filterGt_surj (vals records).toFinset _ (by omega :
      (vals records).toFinset.card - 1 < (vals records).toFinset.card)
    have hru : rankOfVal (vals records) u = (vals records).toFinset.card := by
      unfold rankOfVal
      omega
    have humem : u ∈ vals records := List.mem_toFinset.mp hu
    calc (vals records).toFinset.card = rankOfVal (vals records) u := hru.symm
      _ ≤ _ := le_foldr_max (List.mem_map_of_mem _ humem)

lemma tier_label_one {M : ℕ} (h : 4 ≤ M) : tier_label 1 M = "Top" := by
  have hM0 : (0:ℚ) < M := by
    have : 0 < M := by omega
    exact_mod_cast this
  have h14 : ((1:ℕ):ℚ) / (M:ℚ) ≤ 1/4 := by
    rw [div_le_div_iff₀ hM0 (by norm_num)]
    have h4 : (4:ℚ) ≤ M := by exact_mod_cast h
    push_cast
    linarith
  simp only [tier_label, if_pos h14]

lemma tier_label_top_rank {M : ℕ} (h : 1 ≤ M) : tier_label M M = "Rest" := by
  have hM0 : (0:ℚ) < M := by
    have : 0 < M := by omega
    exact_mod_cast this
  have hdiv : (M:ℚ) / (M:ℚ) = 1 := div_self (ne_of_gt hM0)
  simp only [tier_label, hdiv]
  norm_num

lemma maxCutoffOf_mem {κ : Type} [DecidableEq κ] {records : List (κ × ℚ)} {k : κ}
    (h : k ∈ records.map Prod.fst) :
    maxCutoffOf records k ∈ (records.filter fun p => decide (p.1 = k)).map Prod.snd := by
  have hne : (records.filter fun p => decide (p.1 = k)).map Prod.snd ≠ [] := by
    rcases List.mem_map.mp h with ⟨p, hp, hpk⟩
    have hpf : p ∈ records.filter fun p => decide (p.1 = k) :=
      List.mem_filter.mpr ⟨hp, by simp [hpk]⟩
    exact List.ne_nil_of_mem (List.mem_map_of_mem _ hpf)
  obtain ⟨m, hm⟩ : ∃ m : ℚ,
      ((records.filter fun p => decide (p.1 = k)).map Prod.snd).maximum = (m : WithBot ℚ) := by
    cases h' : ((records.filter fun p => decide (p.1 = k)).map Prod.snd).maximum with
    | bot => exact absurd (List.maximum_eq_bot.mp h') hne
    | coe m => exact ⟨m, rfl⟩
  have hmm := List.maximum_mem hm
  unfold maxCutoffOf
  rw [hm]
  simpa using hmm

lemma vals_ne_nil {κ : Type} [DecidableEq κ] {records : List (κ × ℚ)} (h : records ≠ []) :
    vals records ≠ [] := by
  unfold vals agg
  simp only [ne_eq, List.map_eq_nil_iff, List.dedup_eq_nil]
  exact h

lemma vals_subset_snd {κ : Type} [DecidableEq κ] {records : List (κ × ℚ)} {v : ℚ}
    (hv : v ∈ vals records) : v ∈ records.map Prod.snd := by
  rcases List.mem_map.mp hv with ⟨a, ha, rfl⟩
  rcases List.mem_map.mp ha with ⟨k, hk, rfl⟩
  have hk' : k ∈ records.map Prod.fst := List.mem_dedup.mp hk
  show maxCutoffOf records k ∈ records.map Prod.snd
  have := maxCutoffOf_mem hk'
  rcases List.mem_map.mp this with ⟨p, hp, hps⟩
  rw [← hps]
  have hpr : p ∈ records := List.mem_of_mem_filter hp
  exact List.mem_map_of_mem _ hpr

/-! ## Claims C2, C3, C4, C5 — rank and tier computation -/

/-- C2, as stated, is false on the code: with a single distinct cutoff value
(`max_rank = 1`), `_tier_label(1, 1)` computes percentile 1.0, which fails all
three quartile bounds, so every entity gets tier `Rest`, not `Top`. -/
theorem C2_counterexample :
    ((([((1:ℕ), (50:ℚ)), (2, 50)]).map Prod.snd).toFinset.card = 1) ∧
    ¬ (∀ e ∈ rank_and_tier [((1:ℕ), (50:ℚ)), (2, 50)], e.tier = "Top") := by
  with_unfolding_all decide

/-- C2 (amended): for every category whose cutoff records have exactly one
distinct cutoff value, rank computation assigns `max_rank = 1`, every entity
receives rank 1, and every entity receives tier `Rest`. -/
theorem C2_single_distinct_value {κ : Type} [DecidableEq κ] (records : List (κ × ℚ))
    (h1 : (records.map Prod.snd).toFinset.card = 1) :
    maxRank records = 1 ∧ ∀ e ∈ rank_and_tier records, e.rank = 1 ∧ e.tier = "Rest" := by
  have hrne : records ≠ [] := by
    intro h0
    rw [h0] at h1
    simp at h1
  have hvne := vals_ne_nil hrne
  have hsub : (vals records).toFinset ⊆ (records.map Prod.snd).toFinset := by
    intro v hvmem
    exact List.mem_toFinset.mpr (vals_subset_snd (List.mem_toFinset.mp hvmem))
  obtain ⟨v0, hv0⟩ := List.exists_mem_of_ne_nil _ hvne
  have hvpos : 0 < (vals records).toFinset.card :=
    Finset.card_pos.mpr ⟨v0, List.mem_toFinset.mpr hv0⟩
  have hvcard : (vals records).toFinset.card = 1 := by
    have := Finset.card_le_card hsub
    omega
  have hM : maxRank records = 1 := by rw [maxRank_eq records hvne, hvcard]
  refine ⟨hM, ?_⟩
  intro e he
  obtain ⟨hmem, hrank, htier⟩ := out_spec he
  have hmemf : e.max_cutoff ∈ (vals records).toFinset := List.mem_toFinset.mpr hmem
  have hle := filterGt_card_add_one_le hmemf
  have hrank1 : e.rank = 1 := by
    rw [hrank]
    unfold rankOfVal
    omega
  refine ⟨hrank1, ?_⟩
  rw [htier, ← hrank, hrank1, hM]
  exact tier_label_top_rank (le_refl 1)

theorem C2_witness :
    maxRank [((1:ℕ), (50:ℚ)), (2, 50)] = 1 ∧
    ∀ e ∈ rank_and_tier [((1:ℕ), (50:ℚ)), (2, 50)], e.rank = 1 ∧ e.tier = "Rest" :=
  C2_single_distinct_value [((1:ℕ), (50:ℚ)), (2, 50)] (by with_unfolding_all decide)

/-- C3, as stated, is false on the code: for cutoffs `[100, 100, 90, 80]` the
dense ranks are `[1, 1, 2, 3]` but the tiers are `[Best, Best, Next-Best, Rest]`
(rank 1 has percentile 1/3 > 0.25), not `[Top, Top, Best, Next-Best]`. -/
theorem C3_counterexample :
    (rank_and_tier [((1:ℕ), (100:ℚ)), (2, 100), (3, 90), (4, 80)]).map RankRow.rank
      = [1, 1, 2, 3] ∧
    (rank_and_tier [((1:ℕ), (100:ℚ)), (2, 100), (3, 90), (4, 80)]).map RankRow.tier
      ≠ ["Top", "Top", "Best", "Next-Best"] := by
  with_unfolding_all decide

/-- C3 (amended): for four entities with cutoff values `[100, 100, 90, 80]`
in one category, rank computation produces dense ranks `[1, 1, 2, 3]` and
tiers `[Best, Best, Next-Best, Rest]`. -/
theorem C3_scenario :
    (rank_and_tier [((1:ℕ), (100:ℚ)), (2, 100), (3, 90), (4, 80)]).map RankRow.rank
      = [1, 1, 2, 3] ∧
    (rank_and_tier [((1:ℕ), (100:ℚ)), (2, 100), (3, 90), (4, 80)]).map RankRow.tier
      = ["Best", "Best", "Next-Best", "Rest"] := by
  with_unfolding_all decide

/-- C4: for every category with at least 4 distinct per-entity cutoff values
(so `max_rank ≥ 4`), every entity with rank 1 receives tier `Top` and every
entity with the maximum rank receives tier `Rest`, under the boundary rule
percentile = rank / max_rank with `≤ 0.25 → Top`, `≤ 0.50 → Best`,
`≤ 0.75 → Next-Best`, else `Rest`. -/
theorem C4_extreme_tiers {κ : Type} [DecidableEq κ] (records : List (κ × ℚ))
    (h4 : 4 ≤ (vals records).toFinset.card) :
    ∀ e ∈ rank_and_tier records,
      (e.rank = 1 → e.tier = "Top") ∧ (e.rank = maxRank records → e.tier = "Rest") := by
  have hvne : vals records ≠ [] := by
    intro h0
    rw [h0] at h4
    simp at h4
  have hM := maxRank_eq records hvne
  intro e he
  obtain ⟨hmem, hrank, htier⟩ := out_spec he
  constructor
  · intro h1
    rw [htier, ← hrank, h1, hM]
    exact tier_label_one h4
  · intro hMr
    rw [htier, ← hrank, hMr, hM]
    exact tier_label_top_rank (by omega)

theorem C4_witness :
    4 ≤ (vals [((1:ℕ), (100:ℚ)), (2, 90), (3, 80), (4, 70)]).toFinset.card ∧
    ∀ e ∈ rank_and_tier [((1:ℕ), (100:ℚ)), (2, 90), (3, 80), (4, 70)],
      (e.rank = 1 → e.tier = "Top") ∧
      (e.rank = maxRank [((1:ℕ), (100:ℚ)), (2, 90), (3, 80), (4, 70)] → e.tier = "Rest") :=
  ⟨by with_unfolding_all decide,
   C4_extreme_tiers [((1:ℕ), (100:ℚ)), (2, 90), (3, 80), (4, 70)]
    (by with_unfolding_all decide)⟩

/-- C5: for every non-empty cutoff record set, the assigned ranks form a dense
ranking over per-entity maximum cutoff values: rank 1 goes exactly to the
highest `max_cutoff`, entities with equal `max_cutoff` share a rank, the set of
assigned ranks is exactly `{1, ..., number of distinct values}`, and
consecutive distinct cutoff values receive consecutive ranks, regardless of
how many entities tie at each value. -/
theorem C5_dense_ranking {κ : Type} [DecidableEq κ] (records : List (κ × ℚ))
    (_hne : records ≠ []) :
    (∀ e ∈ rank_and_tier records,
      (e.rank = 1 ↔ ∀ e' ∈ rank_and_tier records, e'.max_cutoff ≤ e.max_cutoff)) ∧
    (∀ e ∈ rank_and_tier records, ∀ e' ∈ rank_and_tier records,
      e.max_cutoff = e'.max_cutoff → e.rank = e'.rank) ∧
    (∀ r : ℕ, (∃ e ∈ rank_and_tier records, e.rank = r) ↔
      1 ≤ r ∧ r ≤ (vals records).toFinset.card) ∧
    (∀ e ∈ rank_and_tier records, ∀ e' ∈ rank_and_tier records,
      e'.max_cutoff < e.max_cutoff →
      (∀ e'' ∈ rank_and_tier records,
        ¬(e'.max_cutoff < e''.max_cutoff ∧ e''.max_cutoff < e.max_cutoff)) →
      e'.rank = e.rank + 1) := by
  refine ⟨?_, ?_, ?_, ?_⟩
  · intro e he
    obtain ⟨hmem, hrank, -⟩ := out_spec he
    constructor
    · intro h1 e' he'
      obtain ⟨hmem', hrank', -⟩ := out_spec he'
      by_contra hlt
      push_neg at hlt
      have hwmem : e'.max_cutoff ∈ (vals records).toFinset.filter fun w => e.max_cutoff < w :=
        Finset.mem_filter.mpr ⟨List.mem_toFinset.mpr hmem', hlt⟩
      have hc : 0 < ((vals records).toFinset.filter fun w => e.max_cutoff < w).card :=
        Finset.card_pos.mpr ⟨_, hwmem⟩
      rw [hrank] at h1
      unfold rankOfVal at h1
      omega
    · intro hall
      rw [hrank]
      unfold rankOfVal
      have hemp : ((vals records).toFinset.filter fun w => e.max_cutoff < w) = ∅ := by
        apply Finset.filter_eq_empty_iff.mpr
        intro w hw
        obtain ⟨e', he', hee⟩ := exists_out (List.mem_toFinset.mp hw)
        have hle := hall e' he'
        rw [hee] at hle
        exact not_lt.mpr hle
      rw [hemp]
      simp
  · intro e he e' he' hmc
    obtain ⟨-, hrank, -⟩ := out_spec he
    obtain ⟨-, hrank', -⟩ := out_spec he'
    rw [hrank, hrank', hmc]
  · intro r
    constructor
    · rintro ⟨e, he, rfl⟩
      obtain ⟨hmem, hrank, -⟩ := out_spec he
      have := filterGt_card_add_one_le (List.mem_toFinset.mpr hmem)
      rw [hrank]
      unfold rankOfVal
      omega
    · rintro ⟨h1, hD⟩
      obtain ⟨v, hv, hc⟩ := filterGt_surj (vals records).toFinset (r - 1) (by omega)
      obtain ⟨e, he, hemc⟩ := exists_out (List.mem_toFinset.mp hv)
      obtain ⟨-, hrank, -⟩ := out_spec he
      refine ⟨e, he, ?_⟩
      rw [hrank, hemc]
      unfold rankOfVal
      omega
  · intro e he e' he' hlt hbetween
    obtain ⟨hmem, hrank, -⟩ := out_spec he
    obtain ⟨hmem', hrank', -⟩ := out_spec he'
    have hins : ((vals records).toFinset.filter fun w => e'.max_cutoff < w)
        = insert e.max_cutoff ((vals records).toFinset.filter fun w => e.max_cutoff < w) := by
      ext w
      simp only [Finset.mem_filter, Finset.mem_insert]
      constructor
      · rintro ⟨hws, hw⟩
        obtain ⟨e'', he'', hemc''⟩ := exists_out (List.mem_toFinset.mp hws)
        have hnb := hbetween e'' he''
        rw [hemc''] at hnb
        rcases lt_or_le w e.max_cutoff with hcase | hcase
        · exact absurd ⟨hw, hcase⟩ hnb
        · rcases hcase.eq_or_lt with heq | hlt2
          · exact Or.inl heq.symm
          · exact Or.inr ⟨hws, hlt2⟩
      · rintro (rfl | ⟨hws, hw⟩)
        · exact ⟨List.mem_toFinset.mpr hmem, hlt⟩
        · exact ⟨hws, lt_trans hlt hw⟩
    have hnotmem : e.max_cutoff ∉ (vals records).toFinset.filter fun w => e.max_cutoff < w := by
      simp [Finset.mem_filter]
    rw [hrank, hrank']
    unfold rankOfVal
    rw [hins, Finset.card_insert_of_not_mem hnotmem]
    omega

theorem C5_witness :
    ([((0:ℕ), (100:ℚ)), (1, 90)] : List (ℕ × ℚ)) ≠ [] ∧
    ∀ e ∈ rank_and_tier [((0:ℕ), (100:ℚ)), (1, 90)],
      (e.rank = 1 ↔ ∀ e' ∈ rank_and_tier [((0:ℕ), (100:ℚ)), (1, 90)],
        e'.max_cutoff ≤ e.max_cutoff) :=
  ⟨by with_unfolding_all decide,
   (C5_dense_ranking [((0:ℕ), (100:ℚ)), (1, 90)] (by with_unfolding_all decide)).1⟩

/-! ## Pipeline structure lemmas -/

lemma zip_map_eq_map {α β γ : Type} (l : List α) (f : α → β) (g : β → α → γ) :
    (l.zip (l.map f)).map (fun p => g p.2 p.1) = l.map fun a => g (f a) a := by
  induction l with
  | nil => rfl
  | cons a t ih => simp [ih]

lemma pairwise_enumFrom_map {α β : Type} {R : α → α → Prop} {S : β → β → Prop}
    (f : ℕ × α → β) (hf : ∀ i a j b, R a b → S (f (i, a)) (f (j, b))) :
    ∀ (n : ℕ) (l : List α), l.Pairwise R → ((l.enumFrom n).map f).Pairwise S := by
  intro n l
  induction l generalizing n with
  | nil => intro _; simp
  | cons a t ih =>
    intro h
    rcases List.pairwise_cons.mp h with ⟨ha, ht⟩
    refine List.Pairwise.cons ?_ (ih (n + 1) ht)
    intro y hy
    rcases List.mem_map.mp hy with ⟨p, hp, rfl⟩
    obtain ⟨i, b⟩ := p
    have hmem : b ∈ t := by
      have hm := List.mem_map_of_mem Prod.snd hp
      rwa [List.enumFrom_map_snd] at hm
    exact hf _ _ _ _ (ha _ hmem)

lemma scored_stage_eq (df : List SRow) (ct bt dt : List String) (dw depw bw cw : ℚ) :
    ((df.zip (compute_final_scores df dw depw bw cw)).map fun p =>
      scoreRow ct bt dt p.2 p.1)
    = df.map fun r => scoreRow ct bt dt (rowFinalW df dw depw bw cw r) r := by
  unfold compute_final_scores
  exact zip_map_eq_map df (rowFinalW df dw depw bw cw) (scoreRow ct bt dt)

lemma pipeline_eq (df : List SRow) (ct bt dt : List String) (dw depw bw cw : ℚ) :
    apply_tier_filtering_and_scoring df ct bt dt dw depw bw cw
    = ((List.insertionSort keyLe
        (df.map fun r => scoreRow ct bt dt (rowFinalW df dw depw bw cw r) r)).enum.map
        fun p => { p.2 with choose_order := p.1 + 1 }) := by
  unfold apply_tier_filtering_and_scoring
  simp only [scored_stage_eq]

lemma pipeline_pairwise (df : List SRow) (ct bt dt : List String) (dw depw bw cw : ℚ) :
    (apply_tier_filtering_and_scoring df ct bt dt dw depw bw cw).Pairwise specLe := by
  rw [pipeline_eq]
  have hsorted : (List.insertionSort keyLe
      (df.map fun r => scoreRow ct bt dt (rowFinalW df dw depw bw cw r) r)).Pairwise keyLe :=
    List.sorted_insertionSort keyLe _
  rw [List.enum]
  apply pairwise_enumFrom_map _ ?_ 0 _ hsorted
  intro i a j b hab
  have h := (keyLe_iff_specLe a b).mp hab
  exact h

lemma pipeline_map_row (df : List SRow) (ct bt dt : List String) (dw depw bw cw : ℚ) :
    (apply_tier_filtering_and_scoring df ct bt dt dw depw bw cw).map ScoredRow.row
    = (List.insertionSort keyLe
        (df.map fun r => scoreRow ct bt dt (rowFinalW df dw depw bw cw r) r)).map
        ScoredRow.row := by
  rw [pipeline_eq, List.map_map]
  have hcomp : (ScoredRow.row ∘ fun p : ℕ × ScoredRow => { p.2 with choose_order := p.1 + 1 })
      = ScoredRow.row ∘ Prod.snd := rfl
  rw [hcomp, ← List.map_map, List.enum_map_snd]

lemma pipeline_perm (df : List SRow) (ct bt dt : List String) (dw depw bw cw : ℚ) :
    ((apply_tier_filtering_and_scoring df ct bt dt dw depw bw cw).map ScoredRow.row).Perm df := by
  rw [pipeline_map_row]
  have h2 := (List.perm_insertionSort keyLe
    (df.map fun r => scoreRow ct bt dt (rowFinalW df dw depw bw cw r) r)).map ScoredRow.row
  refine h2.trans ?_
  rw [List.map_map]
  have hcomp : (ScoredRow.row ∘ fun r => scoreRow ct bt dt (rowFinalW df dw depw bw cw r) r)
      = id := rfl
  rw [hcomp, List.map_id]

lemma pipeline_length (df : List SRow) (ct bt dt : List String) (dw depw bw cw : ℚ) :
    (apply_tier_filtering_and_scoring df ct bt dt dw depw bw cw).length = df.length := by
  have := (pipeline_perm df ct bt dt dw depw bw cw).length_eq
  rw [List.length_map] at this
  exact this

lemma pipeline_choose_order (df : List SRow) (ct bt dt : List String) (dw depw bw cw : ℚ) :
    (apply_tier_filtering_and_scoring df ct bt dt dw depw bw cw).map ScoredRow.choose_order
    = List.range' 1 df.length := by
  rw [pipeline_eq, List.map_map]
  have hcomp : (ScoredRow.choose_order ∘ fun p : ℕ × ScoredRow =>
      { p.2 with choose_order := p.1 + 1 }) = (fun i => i + 1) ∘ Prod.fst := rfl
  rw [hcomp, ← List.map_map, List.enum_map_fst]
  have hlen : (List.insertionSort keyLe
      (df.map fun r => scoreRow ct bt dt (rowFinalW df dw depw bw cw r) r)).length
      = df.length := by
    rw [(List.perm_insertionSort keyLe _).length_eq, List.length_map]
  rw [hlen, List.range'_eq_map_range]
  apply List.map_congr_left
  intro i _
  omega

/-! ## Claims C1, C10, C7 -/

/-- C1: for every input table and parameter set, the scoring pipeline's output
is sorted by, in order: `sum_of_tiers` descending, `final_score` descending,
raw OC cutoff descending, `college_rank` ascending; in particular any earlier
row has `sum_of_tiers` at least that of any later row, so a row with strictly
greater `sum_of_tiers` always precedes, regardless of `final_score`. -/
theorem C1_pipeline_sorted (df : List SRow) (ct bt dt : List String) (dw depw bw cw : ℚ) :
    (apply_tier_filtering_and_scoring df ct bt dt dw depw bw cw).Pairwise specLe ∧
    (apply_tier_filtering_and_scoring df ct bt dt dw depw bw cw).Pairwise
      (fun a b => b.sum_of_tiers ≤ a.sum_of_tiers) := by
  refine ⟨pipeline_pairwise df ct bt dt dw depw bw cw, ?_⟩
  apply (pipeline_pairwise df ct bt dt dw depw bw cw).imp
  intro a b h
  rcases h with h | ⟨heq, -⟩
  · exact le_of_lt h
  · exact le_of_eq heq.symm

/-- C10: for every input table and parameter choice, the output rows are a
permutation of the input rows (nothing added or dropped), and `choose_order`
is exactly the sequence 1..N in output order. -/
theorem C10_permutation_choose_order (df : List SRow) (ct bt dt : List String)
    (dw depw bw cw : ℚ) :
    ((apply_tier_filtering_and_scoring df ct bt dt dw depw bw cw).map ScoredRow.row).Perm df ∧
    (apply_tier_filtering_and_scoring df ct bt dt dw depw bw cw).map ScoredRow.choose_order
      = List.range' 1 df.length ∧
    (apply_tier_filtering_and_scoring df ct bt dt dw depw bw cw).length = df.length :=
  ⟨pipeline_perm df ct bt dt dw depw bw cw,
   pipeline_choose_order df ct bt dt dw depw bw cw,
   pipeline_length df ct bt dt dw depw bw cw⟩

/-- C7: for every non-negative weight quadruple, normalization divides each
weight by their sum, the four normalized weights sum to exactly 1, and the
all-zero quadruple yields exactly (1/4, 1/4, 1/4, 1/4); the function is total. -/
theorem C7_normalize_weights (a b c d : ℚ)
    (ha : 0 ≤ a) (hb : 0 ≤ b) (hc : 0 ≤ c) (hd : 0 ≤ d) :
    ((normalize_weights a b c d).1 + (normalize_weights a b c d).2.1
      + (normalize_weights a b c d).2.2.1 + (normalize_weights a b c d).2.2.2 = 1) ∧
    (a = 0 ∧ b = 0 ∧ c = 0 ∧ d = 0 →
      normalize_weights a b c d = (1/4, 1/4, 1/4, 1/4)) ∧
    (a + b + c + d ≠ 0 →
      normalize_weights a b c d
        = (a/(a+b+c+d), b/(a+b+c+d), c/(a+b+c+d), d/(a+b+c+d))) := by
  simp only [normalize_weights]
  by_cases ht : a + b + c + d = 0
  · rw [if_pos ht]
    refine ⟨by norm_num, fun _ => rfl, fun hne => absurd ht hne⟩
  · rw [if_neg ht]
    refine ⟨?_, ?_, fun _ => rfl⟩
    · rw [div_add_div_same, div_add_div_same, div_add_div_same, div_self ht]
    · rintro ⟨rfl, rfl, rfl, rfl⟩
      exact absurd (by norm_num) ht

theorem C7_witness :
    ((normalize_weights 0 0 0 0).1 + (normalize_weights 0 0 0 0).2.1
      + (normalize_weights 0 0 0 0).2.2.1 + (normalize_weights 0 0 0 0).2.2.2 = 1) ∧
    ((0:ℚ) = 0 ∧ (0:ℚ) = 0 ∧ (0:ℚ) = 0 ∧ (0:ℚ) = 0 →
      normalize_weights 0 0 0 0 = (1/4, 1/4, 1/4, 1/4)) ∧
    ((0:ℚ) + 0 + 0 + 0 ≠ 0 →
      normalize_weights 0 0 0 0 = (0/(0+0+0+0), 0/(0+0+0+0), 0/(0+0+0+0), 0/(0+0+0+0))) :=
  C7_normalize_weights 0 0 0 0 le_rfl le_rfl le_rfl le_rfl

/-! ## Claim C6 — tier scores and sum_of_tiers -/

lemma TIER_SCORES_get_eq_chain {t : String} (h : t ∈ ALL_TIERS) :
    TIER_SCORES_get t
      = (if t = "Top" then 4 else if t = "Best" then 3
          else if t = "Next-Best" then 2 else 1) := by
  fin_cases h <;> decide

lemma TIER_SCORES_get_pos {t : String} (h : t ∈ ALL_TIERS) : 1 ≤ TIER_SCORES_get t := by
  fin_cases h <;> decide

lemma TIER_SCORES_get_le_four (t : String) : TIER_SCORES_get t ≤ 4 := by
  unfold TIER_SCORES_get
  split_ifs <;> omega

lemma optTierScore_spec {o : Option String} {sel : List String} (hsel : sel ⊆ ALL_TIERS) :
    (∀ t, o = some t → optTierScore o sel =
      if t ∈ sel then (if t = "Top" then 4 else if t = "Best" then 3
        else if t = "Next-Best" then 2 else 1) else 0) ∧
    (o = none → optTierScore o sel = 0) ∧
    optTierScore o sel ≤ 4 ∧
    (optTierScore o sel = 0 ↔ ¬ optInSel o sel) := by
  cases o with
  | none =>
    refine ⟨?_, ?_, ?_, ?_⟩
    · intro t ht
      cases ht
    · intro _
      rfl
    · show (0:ℕ) ≤ 4
      omega
    · show (0:ℕ) = 0 ↔ ¬ False
      simp
  | some t =>
    refine ⟨?_, ?_, ?_, ?_⟩
    · intro t' ht'
      cases ht'
      show tier_score t sel = _
      unfold tier_score
      by_cases htc : t ∈ sel
      · rw [if_pos htc, if_pos htc, TIER_SCORES_get_eq_chain (hsel htc)]
      · rw [if_neg htc, if_neg htc]
    · intro h
      cases h
    · show tier_score t sel ≤ 4
      unfold tier_score
      split_ifs
      · exact TIER_SCORES_get_le_four t
      · omega
    · show tier_score t sel = 0 ↔ ¬ optInSel (some t) sel
      unfold tier_score
      by_cases htc : t ∈ sel
      · rw [if_pos htc]
        have := TIER_SCORES_get_pos (hsel htc)
        constructor
        · intro h0
          omega
        · intro hns
          exact absurd htc hns
      · rw [if_neg htc]
        constructor
        · intro _
          exact htc
        · intro _
          rfl

lemma mem_pipeline {df : List SRow} {ct bt dt : List String} {dw depw bw cw : ℚ}
    {s : ScoredRow} (hs : s ∈ apply_tier_filtering_and_scoring df ct bt dt dw depw bw cw) :
    ∃ n, ∃ r ∈ df,
      s = { scoreRow ct bt dt (rowFinalW df dw depw bw cw r) r with choose_order := n } := by
  rw [pipeline_eq] at hs
  rcases List.mem_map.mp hs with ⟨p, hp, rfl⟩
  obtain ⟨i, x⟩ := p
  have hx : x ∈ List.insertionSort keyLe
      (df.map fun r => scoreRow ct bt dt (rowFinalW df dw depw bw cw r) r) := by
    have hm := List.mem_map_of_mem Prod.snd hp
    rwa [List.enum_map_snd] at hm
  have hx2 : x ∈ df.map fun r => scoreRow ct bt dt (rowFinalW df dw depw bw cw r) r :=
    (List.perm_insertionSort keyLe _).mem_iff.mp hx
  rcases List.mem_map.mp hx2 with ⟨r, hr, rfl⟩
  exact ⟨i + 1, r, hr, rfl⟩

/-- C6: for every row and every trio of tier selections that are subsets of
the four tiers, each category tier score is the fixed base score
(Top = 4, Best = 3, Next-Best = 2, Rest = 1) when that category's tier is in
its selection, and 0 otherwise (in particular 0 for a null tier);
`sum_of_tiers` is their sum, lies in [0, 12], and is 0 iff no category's tier
is in its respective selection. -/
theorem C6_tier_scores (df : List SRow) (ct bt dt : List String) (dw depw bw cw : ℚ)
    (hct : ct ⊆ ALL_TIERS) (hbt : bt ⊆ ALL_TIERS) (hdt : dt ⊆ ALL_TIERS) :
    ∀ s ∈ apply_tier_filtering_and_scoring df ct bt dt dw depw bw cw,
      (∀ t, s.row.college.map CatData.tier = some t →
        s.college_tier_score = if t ∈ ct then (if t = "Top" then 4 else if t = "Best" then 3
          else if t = "Next-Best" then 2 else 1) else 0) ∧
      (s.row.college.map CatData.tier = none → s.college_tier_score = 0) ∧
      (∀ t, s.row.branch.map CatData.tier = some t →
        s.branch_tier_score = if t ∈ bt then (if t = "Top" then 4 else if t = "Best" then 3
          else if t = "Next-Best" then 2 else 1) else 0) ∧
      (s.row.branch.map CatData.tier = none → s.branch_tier_score = 0) ∧
      (∀ t, s.row.district.map CatData.tier = some t →
        s.district_tier_score = if t ∈ dt then (if t = "Top" then 4 else if t = "Best" then 3
          else if t = "Next-Best" then 2 else 1) else 0) ∧
      (s.row.district.map CatData.tier = none → s.district_tier_score = 0) ∧
      s.sum_of_tiers = s.college_tier_score + s.branch_tier_score + s.district_tier_score ∧
      s.sum_of_tiers ≤ 12 ∧
      (s.sum_of_tiers = 0 ↔
        ¬ optInSel (s.row.college.map CatData.tier) ct ∧
        ¬ optInSel (s.row.branch.map CatData.tier) bt ∧
        ¬ optInSel (s.row.district.map CatData.tier) dt) := by
  intro s hs
  obtain ⟨n, r, hr, rfl⟩ := mem_pipeline hs
  obtain ⟨hcs, hcn, hcb, hcz⟩ := optTierScore_spec (o := r.college.map CatData.tier) hct
  obtain ⟨hbs, hbn, hbb, hbz⟩ := optTierScore_spec (o := r.branch.map CatData.tier) hbt
  obtain ⟨hds, hdn, hdb, hdz⟩ := optTierScore_spec (o := r.district.map CatData.tier) hdt
  refine ⟨hcs, hcn, hbs, hbn, hds, hdn, rfl, ?_, ?_⟩
  · show optTierScore (r.college.map CatData.tier) ct
        + optTierScore (r.branch.map CatData.tier) bt
        + optTierScore (r.district.map CatData.tier) dt ≤ 12
    omega
  · show optTierScore (r.college.map CatData.tier) ct
        + optTierScore (r.branch.map CatData.tier) bt
        + optTierScore (r.district.map CatData.tier) dt = 0 ↔ _
    rw [Nat.add_eq_zero, Nat.add_eq_zero]
    rw [hcz, hbz, hdz]
    tauto

theorem C6_witness :
    (["Top"] ⊆ ALL_TIERS) ∧
    ∀ s ∈ apply_tier_filtering_and_scoring [⟨(50:ℚ), none, none, none, none⟩]
        ["Top"] ["Top", "Best"] ["Rest"] 25 25 25 25,
      (∀ t, s.row.college.map CatData.tier = some t →
        s.college_tier_score = if t ∈ ["Top"] then (if t = "Top" then 4 else if t = "Best" then 3
          else if t = "Next-Best" then 2 else 1) else 0) ∧
      (s.row.college.map CatData.tier = none → s.college_tier_score = 0) ∧
      (∀ t, s.row.branch.map CatData.tier = some t →
        s.branch_tier_score = if t ∈ ["Top", "Best"] then
          (if t = "Top" then 4 else if t = "Best" then 3
          else if t = "Next-Best" then 2 else 1) else 0) ∧
      (s.row.branch.map CatData.tier = none → s.branch_tier_score = 0) ∧
      (∀ t, s.row.district.map CatData.tier = some t →
        s.district_tier_score = if t ∈ ["Rest"] then (if t = "Top" then 4 else if t = "Best" then 3
          else if t = "Next-Best" then 2 else 1) else 0) ∧
      (s.row.district.map CatData.tier = none → s.district_tier_score = 0) ∧
      s.sum_of_tiers = s.college_tier_score + s.branch_tier_score + s.district_tier_score ∧
      s.sum_of_tiers ≤ 12 ∧
      (s.sum_of_tiers = 0 ↔
        ¬ optInSel (s.row.college.map CatData.tier) ["Top"] ∧
        ¬ optInSel (s.row.branch.map CatData.tier) ["Top", "Best"] ∧
        ¬ optInSel (s.row.district.map CatData.tier) ["Rest"]) :=
  ⟨by decide,
   C6_tier_scores [⟨(50:ℚ), none, none, none, none⟩] ["Top"] ["Top", "Best"] ["Rest"]
    25 25 25 25 (by decide) (by decide) (by decide)⟩

/-! ## Claim C9 — rows with all ranks null -/

lemma rankScore_none_right (m : Option ℕ) : rankScore m none = none := by
  cases m <;> rfl

lemma scoreRow_null (df : List SRow) (ct bt dt : List String) (dw depw bw cw : ℚ)
    {r : SRow} (h : allRanksNull r) :
    (scoreRow ct bt dt (rowFinalW df dw depw bw cw r) r).final_score = none ∧
    (scoreRow ct bt dt (rowFinalW df dw depw bw cw r) r).sum_of_tiers = 0 := by
  obtain ⟨h1, h2, h3, h4⟩ := h
  constructor
  · show (rowFinalW df dw depw bw cw r).map round2 = none
    unfold rowFinalW rowFinal
    rw [h1]
    rw [show (none : Option CatData).map CatData.rank = none from rfl]
    rw [rankScore_none_right]
    rfl
  · show optTierScore (r.college.map CatData.tier) ct
        + optTierScore (r.branch.map CatData.tier) bt
        + optTierScore (r.district.map CatData.tier) dt = 0
    rw [h1, h3, h4]
    rfl

lemma colMax_isSome_of_mem {l : List (Option ℕ)} {v : ℕ} (h : some v ∈ l) :
    ∃ m, colMax l = some m := by
  unfold colMax
  cases hm : (l.filterMap id).max? with
  | some m => exact ⟨m, rfl⟩
  | none =>
    have hnil := List.max?_eq_none_iff.mp hm
    have hv : v ∈ l.filterMap id := List.mem_filterMap.mpr ⟨some v, h, rfl⟩
    rw [hnil] at hv
    cases hv

lemma scoreRow_ranked (df : List SRow) (ct bt dt : List String) (dw depw bw cw : ℚ)
    {r : SRow} (hr : r ∈ df) (h : allRanked r) :
    ∃ v, (scoreRow ct bt dt (rowFinalW df dw depw bw cw r) r).final_score = some v := by
  obtain ⟨hd, hdep, hb, hc⟩ := h
  obtain ⟨cdd, hcdd⟩ := Option.ne_none_iff_exists'.mp hd
  obtain ⟨cdep, hcdep⟩ := Option.ne_none_iff_exists'.mp hdep
  obtain ⟨cdb, hcdb⟩ := Option.ne_none_iff_exists'.mp hb
  obtain ⟨cdc, hcdc⟩ := Option.ne_none_iff_exists'.mp hc
  obtain ⟨dm, hdm⟩ := colMax_isSome_of_mem
    (l := df.map fun x => x.district.map CatData.rank) (v := cdd.rank)
    (by
      have he : (fun x : SRow => x.district.map CatData.rank) r = some cdd.rank := by
        simp [hcdd]
      exact he ▸ List.mem_map_of_mem _ hr)
  obtain ⟨depm, hdepm⟩ := colMax_isSome_of_mem
    (l := df.map fun x => x.department.map CatData.rank) (v := cdep.rank)
    (by
      have he : (fun x : SRow => x.department.map CatData.rank) r = some cdep.rank := by
        simp [hcdep]
      exact he ▸ List.mem_map_of_mem _ hr)
  obtain ⟨bm, hbm⟩ := colMax_isSome_of_mem
    (l := df.map fun x => x.branch.map CatData.rank) (v := cdb.rank)
    (by
      have he : (fun x : SRow => x.branch.map CatData.rank) r = some cdb.rank := by
        simp [hcdb]
      exact he ▸ List.mem_map_of_mem _ hr)
  obtain ⟨cm, hcm⟩ := colMax_isSome_of_mem
    (l := df.map fun x => x.college.map CatData.rank) (v := cdc.rank)
    (by
      have he : (fun x : SRow => x.college.map CatData.rank) r = some cdc.rank := by
        simp [hcdc]
      exact he ▸ List.mem_map_of_mem _ hr)
  show ∃ v, (rowFinalW df dw depw bw cw r).map round2 = some v
  unfold rowFinalW rowFinal
  rw [hdm, hdepm, hbm, hcm, hcdd, hcdep, hcdb, hcdc]
  exact ⟨_, rfl⟩

lemma sortKey_lt_null {a b : ScoredRow} (hbsum : b.sum_of_tiers = 0)
    (hbfin : b.final_score = none) (hafin : ∃ v, a.final_score = some v) :
    sortKey a < sortKey b := by
  unfold sortKey
  rw [Prod.Lex.lt_iff]
  by_cases hs : a.sum_of_tiers = 0
  · right
    refine ⟨by rw [hs, hbsum], ?_⟩
    rw [Prod.Lex.lt_iff]
    left
    obtain ⟨v, hv⟩ := hafin
    rw [hv, hbfin, fsKey_lt_iff]
    trivial
  · left
    have hpos : 0 < a.sum_of_tiers := Nat.pos_of_ne_zero hs
    rw [hbsum]
    have hq : (0:ℚ) < (a.sum_of_tiers : ℚ) := by exact_mod_cast hpos
    simp only [Nat.cast_zero, neg_zero]
    linarith

/-- C9: the scoring pipeline is total on inputs containing rows with no rank
data at all (it never raises): such rows still appear in the output, and every
row that has rank data in all four categories is ordered before every
all-null-rank row. -/
theorem C9_null_rows (df : List SRow) (ct bt dt : List String) (dw depw bw cw : ℚ) :
    (∀ r ∈ df, allRanksNull r →
      r ∈ (apply_tier_filtering_and_scoring df ct bt dt dw depw bw cw).map ScoredRow.row) ∧
    (∀ i j (hi : i < (apply_tier_filtering_and_scoring df ct bt dt dw depw bw cw).length)
        (hj : j < (apply_tier_filtering_and_scoring df ct bt dt dw depw bw cw).length),
      allRanksNull
        ((apply_tier_filtering_and_scoring df ct bt dt dw depw bw cw).get ⟨i, hi⟩).row →
      allRanked
        ((apply_tier_filtering_and_scoring df ct bt dt dw depw bw cw).get ⟨j, hj⟩).row →
      j < i) := by
  constructor
  · intro r hr _
    exact (pipeline_perm df ct bt dt dw depw bw cw).mem_iff.mpr hr
  · intro i j hi hj hnull hranked
    obtain ⟨n1, r1, hr1, he1⟩ :=
      mem_pipeline (List.get_mem (apply_tier_filtering_and_scoring df ct bt dt dw depw bw cw) i hi)
    obtain ⟨n2, r2, hr2, he2⟩ :=
      mem_pipeline (List.get_mem (apply_tier_filtering_and_scoring df ct bt dt dw depw bw cw) j hj)
    rw [he1] at hnull
    rw [he2] at hranked
    have hn1 : allRanksNull r1 := hnull
    have hn2 : allRanked r2 := hranked
    obtain ⟨hfin1, hsum1⟩ := scoreRow_null df ct bt dt dw depw bw cw hn1
    obtain ⟨v2, hfin2⟩ := scoreRow_ranked df ct bt dt dw depw bw cw hr2 hn2
    have hkey : sortKey ((apply_tier_filtering_and_scoring df ct bt dt dw depw bw cw).get ⟨j, hj⟩)
        < sortKey ((apply_tier_filtering_and_scoring df ct bt dt dw depw bw cw).get ⟨i, hi⟩) := by
      rw [he1, he2]
      exact sortKey_lt_null hsum1 hfin1 ⟨v2, hfin2⟩
    rcases Nat.lt_trichotomy j i with h | h | h
    · exact h
    · exfalso
      subst h
      rw [he1] at he2
      have hcongr := congrArg ScoredRow.final_score he2
      have hns : (none : Option ℚ) = some v2 := (hfin1.symm.trans hcongr).trans hfin2
      cases hns
    · exfalso
      have hpw := List.pairwise_iff_get.mp
        (pipeline_pairwise df ct bt dt dw depw bw cw) ⟨i, hi⟩ ⟨j, hj⟩ h
      have hle := (sortKey_le_iff _ _).mpr hpw
      exact absurd (lt_of_le_of_lt hle hkey) (lt_irrefl _)

theorem C9_witness :
    ((⟨(60:ℚ), none, none, none, none⟩ : SRow) ∈
      (apply_tier_filtering_and_scoring
        [⟨(60:ℚ), none, none, none, none⟩,
         ⟨50, some ⟨1, "Top"⟩, some ⟨1, "Top"⟩, some ⟨1, "Top"⟩, some ⟨1, "Top"⟩⟩]
        ALL_TIERS ALL_TIERS ALL_TIERS 25 25 25 25).map ScoredRow.row) ∧ (0:ℕ) < 1 :=
  ⟨(C9_null_rows
      [⟨(60:ℚ), none, none, none, none⟩,
       ⟨50, some ⟨1, "Top"⟩, some ⟨1, "Top"⟩, some ⟨1, "Top"⟩, some ⟨1, "Top"⟩⟩]
      ALL_TIERS ALL_TIERS ALL_TIERS 25 25 25 25).1
    ⟨(60:ℚ), none, none, none, none⟩ (by decide) (by decide),
   (C9_null_rows
      [⟨(60:ℚ), none, none, none, none⟩,
       ⟨50, some ⟨1, "Top"⟩, some ⟨1, "Top"⟩, some ⟨1, "Top"⟩, some ⟨1, "Top"⟩⟩]
      ALL_TIERS ALL_TIERS ALL_TIERS 25 25 25 25).2
    1 0 (by with_unfolding_all decide) (by with_unfolding_all decide)
    (by with_unfolding_all decide) (by with_unfolding_all decide)⟩

/-! ## Claim C8 — the master-table join -/

lemma find?_eq_head_filter {α : Type} (p : α → Bool) (l : List α) :
    l.find? p = (l.filter p).head? := by
  induction l with
  | nil => rfl
  | cons a t ih =>
    by_cases h : p a
    · rw [List.find?_cons_of_pos _ h, List.filter_cons_of_pos h]
      rfl
    · rw [List.find?_cons_of_neg _ h, List.filter_cons_of_neg h, ih]

lemma filter_keyEq_length_le_one {σ : Type} (table : List σ) (key : σ → ℕ)
    (hnd : (table.map key).Nodup) (k : ℕ) :
    (table.filter fun t => k == key t).length ≤ 1 := by
  induction table with
  | nil => simp
  | cons t ts ih =>
    rw [List.map_cons, List.nodup_cons] at hnd
    obtain ⟨hkey, hnd'⟩ := hnd
    by_cases h : (k == key t : Bool)
    · rw [List.filter_cons_of_pos (p := fun t' => k == key t') h]
      have hk : k = key t := beq_iff_eq.mp h
      have hnil : ts.filter (fun t' => k == key t') = [] := by
        apply List.filter_eq_nil_iff.mpr
        intro t' ht' hb
        have hk' : k = key t' := beq_iff_eq.mp hb
        apply hkey
        have hmem : key t' ∈ ts.map key := List.mem_map_of_mem key ht'
        have heq : key t' = key t := by omega
        rwa [heq] at hmem
      rw [hnil]
      simp
    · rw [List.filter_cons_of_neg (p := fun t' => k == key t') h]
      exact ih hnd'

lemma leftJoin_eq_map {ρ σ : Type} (rows : List ρ) (table : List σ)
    (keyEq : ρ → σ → Bool) (upd : ρ → σ → ρ)
    (h : ∀ r, (table.filter (keyEq r)).length ≤ 1) :
    leftJoin rows table keyEq upd
      = rows.map fun r =>
          match table.find? (keyEq r) with
          | none => r
          | some t => upd r t := by
  induction rows with
  | nil => rfl
  | cons r rs ih =>
    unfold leftJoin
    rw [List.flatMap_cons]
    unfold leftJoin at ih
    rw [ih, List.map_cons]
    rw [find?_eq_head_filter]
    cases hf : table.filter (keyEq r) with
    | nil => rfl
    | cons t ts =>
      have hlen := h r
      rw [hf] at hlen
      have hts : ts = [] := by
        cases ts with
        | nil => rfl
        | cons x xs => simp at hlen
      subst hts
      rfl

lemma leftJoin_map_key {ρ σ γ : Type} (rows : List ρ) (table : List σ)
    (keyEq : ρ → σ → Bool) (upd : ρ → σ → ρ) (π : ρ → γ)
    (hupd : ∀ r t, π (upd r t) = π r)
    (huniq : ∀ r, (table.filter (keyEq r)).length ≤ 1) :
    (leftJoin rows table keyEq upd).map π = rows.map π := by
  rw [leftJoin_eq_map _ _ _ _ huniq, List.map_map]
  apply List.map_congr_left
  intro r _
  show π (match table.find? (keyEq r) with | none => r | some t => upd r t) = π r
  cases table.find? (keyEq r) with
  | none => rfl
  | some t => exact hupd r t

lemma leftJoin_forall {ρ σ : Type} {rows : List ρ} {table : List σ} {keyEq : ρ → σ → Bool}
    {upd : ρ → σ → ρ} (Q : ρ → Prop) (h0 : ∀ r ∈ rows, Q r)
    (hupd : ∀ r ∈ rows, Q r → ∀ t ∈ table, keyEq r t = true → Q (upd r t)) :
    ∀ m ∈ leftJoin rows table keyEq upd, Q m := by
  intro m hm
  unfold leftJoin at hm
  rcases List.mem_flatMap.mp hm with ⟨r, hr, hmr⟩
  revert hmr
  cases hf : table.filter (keyEq r) with
  | nil =>
    intro hmr
    exact (List.mem_singleton.mp hmr) ▸ h0 r hr
  | cons t ts =>
    intro hmr
    rcases List.mem_map.mp hmr with ⟨t', ht', rfl⟩
    have ht'' : t' ∈ table.filter (keyEq r) := by
      rw [hf]
      exact ht'
    rcases List.mem_filter.mp ht'' with ⟨htab, hkey⟩
    exact hupd r hr (h0 r hr) t' htab hkey

lemma build_eq_nested (cutoff : List CutoffRec)
    (districts colleges branches : List (ℕ × String))
    (dR depR bR cR : List (RankRow ℕ)) :
    build_master_table cutoff districts colleges branches dR depR bR cR
      = leftJoin
          (leftJoin
            (leftJoin
              (leftJoin
                (leftJoin
                  (leftJoin
                    (leftJoin
                      (cutoff.map fun c => ⟨c, none, none, none, none, none, none, none⟩)
                      districts (fun r t => r.cut.districtId == t.1)
                      (fun r t => { r with district_name := some t.2 }))
                    colleges (fun r t => r.cut.collegeCode == t.1)
                    (fun r t => { r with college_name := some t.2 }))
                  branches (fun r t => r.cut.branchCode == t.1)
                  (fun r t => { r with branch_name := some t.2 }))
                dR (fun r t => r.cut.districtId == t.key)
                (fun r t => { r with district_data := some t }))
              depR (fun r t => r.cut.departmentId == t.key)
              (fun r t => { r with department_data := some t }))
            bR (fun r t => r.cut.branchCode == t.key)
            (fun r t => { r with branch_data := some t }))
          cR (fun r t => r.cut.collegeCode == t.key)
          (fun r t => { r with college_data := some t }) := rfl

set_option maxHeartbeats 1600000 in
/-- C8: when every reference and rank table carries at most one row per join
key, the master table has exactly one row per cutoff record, in order (so no
row is duplicated or dropped), and a record whose key has no match in a joined
table keeps null joined fields instead of being dropped or erroring. -/

theorem C8_master_table (cutoff : List CutoffRec)
    (districts colleges branches : List (ℕ × String))
    (dR depR bR cR : List (RankRow ℕ))
    (hd : (districts.map Prod.fst).Nodup) (hcol : (colleges.map Prod.fst).Nodup)
    (hbra : (branches.map Prod.fst).Nodup)
    (hdr : (dR.map RankRow.key).Nodup) (hdepr : (depR.map RankRow.key).Nodup)
    (hbrr : (bR.map RankRow.key).Nodup) (hcrr : (cR.map RankRow.key).Nodup) :
    (build_master_table cutoff districts colleges branches dR depR bR cR).map MRow.cut
      = cutoff ∧
    (build_master_table cutoff districts colleges branches dR depR bR cR).length
      = cutoff.length ∧
    (∀ m ∈ build_master_table cutoff districts colleges branches dR depR bR cR,
      ((∀ t ∈ districts, t.1 ≠ m.cut.districtId) → m.district_name = none) ∧
      ((∀ t ∈ colleges, t.1 ≠ m.cut.collegeCode) → m.college_name = none) ∧
      ((∀ t ∈ branches, t.1 ≠ m.cut.branchCode) → m.branch_name = none) ∧
      ((∀ t ∈ dR, t.key ≠ m.cut.districtId) → m.district_data = none) ∧
      ((∀ t ∈ depR, t.key ≠ m.cut.departmentId) → m.department_data = none) ∧
      ((∀ t ∈ bR, t.key ≠ m.cut.branchCode) → m.branch_data = none) ∧
      ((∀ t ∈ cR, t.key ≠ m.cut.collegeCode) → m.college_data = none)) := by
  have hcut : (build_master_table cutoff districts colleges branches dR depR bR cR).map MRow.cut
      = cutoff := by
    rw [build_eq_nested]
    refine (leftJoin_map_key _ _ _ _ _ ?_
      (fun r : MRow => filter_keyEq_length_le_one cR RankRow.key hcrr r.cut.collegeCode)).trans ?_
    · exact fun r t => rfl
    refine (leftJoin_map_key _ _ _ _ _ ?_
      (fun r : MRow => filter_keyEq_length_le_one bR RankRow.key hbrr r.cut.branchCode)).trans ?_
    · exact fun r t => rfl
    refine (leftJoin_map_key _ _ _ _ _ ?_
      (fun r : MRow => filter_keyEq_length_le_one depR RankRow.key hdepr r.cut.departmentId)).trans ?_
    · exact fun r t => rfl
    refine (leftJoin_map_key _ _ _ _ _ ?_
      (fun r : MRow => filter_keyEq_length_le_one dR RankRow.key hdr r.cut.districtId)).trans ?_
    · exact fun r t => rfl
    refine (leftJoin_map_key _ _ _ _ _ ?_
      (fun r : MRow => filter_keyEq_length_le_one branches Prod.fst hbra r.cut.branchCode)).trans ?_
    · exact fun r t => rfl
    refine (leftJoin_map_key _ _ _ _ _ ?_
      (fun r : MRow => filter_keyEq_length_le_one colleges Prod.fst hcol r.cut.collegeCode)).trans ?_
    · exact fun r t => rfl
    refine (leftJoin_map_key _ _ _ _ _ ?_
      (fun r : MRow => filter_keyEq_length_le_one districts Prod.fst hd r.cut.districtId)).trans ?_
    · exact fun r t => rfl
    rw [List.map_map]
    have hcomp : (MRow.cut ∘ fun c => (⟨c, none, none, none, none, none, none, none⟩ : MRow))
        = id := rfl
    rw [hcomp, List.map_id]
  refine ⟨hcut, ?_, ?_⟩
  · have := congrArg List.length hcut
    rwa [List.length_map] at this
  intro m hm
  rw [build_eq_nested] at hm
  set m0 := cutoff.map (fun c => (⟨c, none, none, none, none, none, none, none⟩ : MRow))
    with hm0def
  set m1 := leftJoin m0 districts (fun r t => r.cut.districtId == t.1)
      (fun r t => { r with district_name := some t.2 }) with hm1def
  set m2 := leftJoin m1 colleges (fun r t => r.cut.collegeCode == t.1)
      (fun r t => { r with college_name := some t.2 }) with hm2def
  set m3 := leftJoin m2 branches (fun r t => r.cut.branchCode == t.1)
      (fun r t => { r with branch_name := some t.2 }) with hm3def
  set m4 := leftJoin m3 dR (fun r t => r.cut.districtId == t.key)
      (fun r t => { r with district_data := some t }) with hm4def
  set m5 := leftJoin m4 depR (fun r t => r.cut.departmentId == t.key)
      (fun r t => { r with department_data := some t }) with hm5def
  set m6 := leftJoin m5 bR (fun r t => r.cut.branchCode == t.key)
      (fun r t => { r with branch_data := some t }) with hm6def
  have h0 : ∀ r ∈ m0,
      ((∀ t ∈ districts, t.1 ≠ r.cut.districtId) → r.district_name = none) ∧
      r.college_name = none ∧ r.branch_name = none ∧ r.district_data = none ∧
      r.department_data = none ∧ r.branch_data = none ∧ r.college_data = none := by
    intro r hr
    rw [hm0def] at hr
    rcases List.mem_map.mp hr with ⟨c, -, rfl⟩
    exact ⟨fun _ => rfl, rfl, rfl, rfl, rfl, rfl, rfl⟩
  have h1 : ∀ r ∈ m1,
      ((∀ t ∈ districts, t.1 ≠ r.cut.districtId) → r.district_name = none) ∧
      r.college_name = none ∧ r.branch_name = none ∧ r.district_data = none ∧
      r.department_data = none ∧ r.branch_data = none ∧ r.college_data = none := by
    rw [hm1def]
    refine leftJoin_forall _ h0 ?_
    intro r _ hQ t ht hk
    refine ⟨?_, hQ.2.1, hQ.2.2.1, hQ.2.2.2.1, hQ.2.2.2.2.1, hQ.2.2.2.2.2.1,
      hQ.2.2.2.2.2.2⟩
    intro hno
    exact absurd (beq_iff_eq.mp hk).symm (hno t ht)
  have h2 : ∀ r ∈ m2,
      ((∀ t ∈ districts, t.1 ≠ r.cut.districtId) → r.district_name = none) ∧
      ((∀ t ∈ colleges, t.1 ≠ r.cut.collegeCode) → r.college_name = none) ∧
      r.branch_name = none ∧ r.district_data = none ∧
      r.department_data = none ∧ r.branch_data = none ∧ r.college_data = none := by
    rw [hm2def]
    refine leftJoin_forall _
      (fun r hr => ⟨(h1 r hr).1, fun _ => (h1 r hr).2.1, (h1 r hr).2.2.1,
        (h1 r hr).2.2.2.1, (h1 r hr).2.2.2.2.1, (h1 r hr).2.2.2.2.2.1,
        (h1 r hr).2.2.2.2.2.2⟩) ?_
    intro r _ hQ t ht hk
    refine ⟨hQ.1, ?_, hQ.2.2.1, hQ.2.2.2.1, hQ.2.2.2.2.1, hQ.2.2.2.2.2.1,
      hQ.2.2.2.2.2.2⟩
    intro hno
    exact absurd (beq_iff_eq.mp hk).symm (hno t ht)
  have h3 : ∀ r ∈ m3,
      ((∀ t ∈ districts, t.1 ≠ r.cut.districtId) → r.district_name = none) ∧
      ((∀ t ∈ colleges, t.1 ≠ r.cut.collegeCode) → r.college_name = none) ∧
      ((∀ t ∈ branches, t.1 ≠ r.cut.branchCode) → r.branch_name = none) ∧
      r.district_data = none ∧
      r.department_data = none ∧ r.branch_data = none ∧ r.college_data = none := by
    rw [hm3def]
    refine leftJoin_forall _
      (fun r hr => ⟨(h2 r hr).1, (h2 r hr).2.1, fun _ => (h2 r hr).2.2.1,
        (h2 r hr).2.2.2.1, (h2 r hr).2.2.2.2.1, (h2 r hr).2.2.2.2.2.1,
        (h2 r hr).2.2.2.2.2.2⟩) ?_
    intro r _ hQ t ht hk
    refine ⟨hQ.1, hQ.2.1, ?_, hQ.2.2.2.1, hQ.2.2.2.2.1, hQ.2.2.2.2.2.1,
      hQ.2.2.2.2.2.2⟩
    intro hno
    exact absurd (beq_iff_eq.mp hk).symm (hno t ht)
  have h4 : ∀ r ∈ m4,
      ((∀ t ∈ districts, t.1 ≠ r.cut.districtId) → r.district_name = none) ∧
      ((∀ t ∈ colleges, t.1 ≠ r.cut.collegeCode) → r.college_name = none) ∧
      ((∀ t ∈ branches, t.1 ≠ r.cut.branchCode) → r.branch_name = none) ∧
      ((∀ t ∈ dR, t.key ≠ r.cut.districtId) → r.district_data = none) ∧
      r.department_data = none ∧ r.branch_data = none ∧ r.college_data = none := by
    rw [hm4def]
    refine leftJoin_forall _
      (fun r hr => ⟨(h3 r hr).1, (h3 r hr).2.1, (h3 r hr).2.2.1,
        fun _ => (h3 r hr).2.2.2.1, (h3 r hr).2.2.2.2.1, (h3 r hr).2.2.2.2.2.1,
        (h3 r hr).2.2.2.2.2.2⟩) ?_
    intro r _ hQ t ht hk
    refine ⟨hQ.1, hQ.2.1, hQ.2.2.1, ?_, hQ.2.2.2.2.1, hQ.2.2.2.2.2.1,
      hQ.2.2.2.2.2.2⟩
    intro hno
    exact absurd (beq_iff_eq.mp hk).symm (hno t ht)
  have h5 : ∀ r ∈ m5,
      ((∀ t ∈ districts, t.1 ≠ r.cut.districtId) → r.district_name = none) ∧
      ((∀ t ∈ colleges, t.1 ≠ r.cut.collegeCode) → r.college_name = none) ∧
      ((∀ t ∈ branches, t.1 ≠ r.cut.branchCode) → r.branch_name = none) ∧
      ((∀ t ∈ dR, t.key ≠ r.cut.districtId) → r.district_data = none) ∧
      ((∀ t ∈ depR, t.key ≠ r.cut.departmentId) → r.department_data = none) ∧
      r.branch_data = none ∧ r.college_data = none := by
    rw [hm5def]
    refine leftJoin_forall _
      (fun r hr => ⟨(h4 r hr).1, (h4 r hr).2.1, (h4 r hr).2.2.1, (h4 r hr).2.2.2.1,
        fun _ => (h4 r hr).2.2.2.2.1, (h4 r hr).2.2.2.2.2.1,
        (h4 r hr).2.2.2.2.2.2⟩) ?_
    intro r _ hQ t ht hk
    refine ⟨hQ.1, hQ.2.1, hQ.2.2.1, hQ.2.2.2.1, ?_, hQ.2.2.2.2.2.1,
      hQ.2.2.2.2.2.2⟩
    intro hno
    exact absurd (beq_iff_eq.mp hk).symm (hno t ht)
  have h6 : ∀ r ∈ m6,
      ((∀ t ∈ districts, t.1 ≠ r.cut.districtId) → r.district_name = none) ∧
      ((∀ t ∈ colleges, t.1 ≠ r.cut.collegeCode) → r.college_name = none) ∧
      ((∀ t ∈ branches, t.1 ≠ r.cut.branchCode) → r.branch_name = none) ∧
      ((∀ t ∈ dR, t.key ≠ r.cut.districtId) → r.district_data = none) ∧
      ((∀ t ∈ depR, t.key ≠ r.cut.departmentId) → r.department_data = none) ∧
      ((∀ t ∈ bR, t.key ≠ r.cut.branchCode) → r.branch_data = none) ∧
      r.college_data = none := by
    rw [hm6def]
    refine leftJoin_forall _
      (fun r hr => ⟨(h5 r hr).1, (h5 r hr).2.1, (h5 r hr).2.2.1, (h5 r hr).2.2.2.1,
        (h5 r hr).2.2.2.2.1, fun _ => (h5 r hr).2.2.2.2.2.1,
        (h5 r hr).2.2.2.2.2.2⟩) ?_
    intro r _ hQ t ht hk
    refine ⟨hQ.1, hQ.2.1, hQ.2.2.1, hQ.2.2.2.1, hQ.2.2.2.2.1, ?_,
      hQ.2.2.2.2.2.2⟩
    intro hno
    exact absurd (beq_iff_eq.mp hk).symm (hno t ht)
  revert m hm
  refine leftJoin_forall _
    (fun r hr => ⟨(h6 r hr).1, (h6 r hr).2.1, (h6 r hr).2.2.1, (h6 r hr).2.2.2.1,
      (h6 r hr).2.2.2.2.1, (h6 r hr).2.2.2.2.2.1,
      fun _ => (h6 r hr).2.2.2.2.2.2⟩) ?_
  intro r _ hQ t ht hk
  refine ⟨hQ.1, hQ.2.1, hQ.2.2.1, hQ.2.2.2.1, hQ.2.2.2.2.1, hQ.2.2.2.2.2.1, ?_⟩
  intro hno
  exact absurd (beq_iff_eq.mp hk).symm (hno t ht)

theorem C8_witness :
    (build_master_table [⟨1, 10, 100, 5, (95:ℚ), 2020⟩] [(1, "D")] [] [] [] [] [] []).map
        MRow.cut = [⟨1, 10, 100, 5, (95:ℚ), 2020⟩] ∧
    (build_master_table [⟨1, 10, 100, 5, (95:ℚ), 2020⟩] [(1, "D")] [] [] [] [] [] []).length
      = ([⟨1, 10, 100, 5, (95:ℚ), 2020⟩] : List CutoffRec).length ∧
    (∀ m ∈ build_master_table [⟨1, 10, 100, 5, (95:ℚ), 2020⟩] [(1, "D")] [] [] [] [] [] [],
      ((∀ t ∈ [((1:ℕ), "D")], t.1 ≠ m.cut.districtId) → m.district_name = none) ∧
      ((∀ t ∈ ([] : List (ℕ × String)), t.1 ≠ m.cut.collegeCode) → m.college_name = none) ∧
      ((∀ t ∈ ([] : List (ℕ × String)), t.1 ≠ m.cut.branchCode) → m.branch_name = none) ∧
      ((∀ t ∈ ([] : List (RankRow ℕ)), t.key ≠ m.cut.districtId) → m.district_data = none) ∧
      ((∀ t ∈ ([] : List (RankRow ℕ)), t.key ≠ m.cut.departmentId) →
        m.department_data = none) ∧
      ((∀ t ∈ ([] : List (RankRow ℕ)), t.key ≠ m.cut.branchCode) → m.branch_data = none) ∧
      ((∀ t ∈ ([] : List (RankRow ℕ)), t.key ≠ m.cut.collegeCode) → m.college_data = none)) :=
  C8_master_table [⟨1, 10, 100, 5, (95:ℚ), 2020⟩] [(1, "D")] [] [] [] [] [] []
    (by decide) (by decide) (by decide) (by decide) (by decide) (by decide) (by decide)
